import Mathlib

/-!
Verification of the campaign orchestration coordinator of the
Orchestrate-Studios dashboard: the campaign normalizer (`mappedData` in
`CampaignResults`), the pipeline coordinator handlers in `Home`
(`page.tsx`), the persistence guard (mount/persist effects over the
`lastCampaign` storage key), the upload validator (`video-uploader.tsx`),
and the simulated orchestration pipeline (`OrchestrationStatus`).

The JavaScript value universe is modelled by the inductive `Json` below
(numbers as integers — no claim depends on fractional values; `null` and
`undefined` are conflated, which is sound for this code since both are
falsy, both short-circuit optional chaining, and property access throws on
both). Property access, optional chaining, `||`, truthiness, indexing,
object spread, and strict string equality are each given their JavaScript
semantics; computations that can throw a TypeError live in
`Except Unit`.
-/

inductive Json where
  | null
  | bool (b : Bool)
  | num (n : Int)
  | str (s : String)
  | arr (elems : List Json)
  | obj (fields : List (String × Json))

/-- JavaScript truthiness of a value. -/
def truthy : Json → Bool
  | .null => false
  | .bool b => b
  | .num n => n != 0
  | .str s => s ≠ ""
  | .arr _ => true
  | .obj _ => true

/-- First-match lookup in an object field list (field lists of real
JavaScript values have no duplicate keys). -/
def lookupField : List (String × Json) → String → Option Json
  | [], _ => none
  | p :: rest, k => if p.1 = k then some p.2 else lookupField rest k

/-- Property lookup that cannot throw: `undefined` (here `.null`) on
non-objects and on absent keys. -/
def fieldOrNull : Json → String → Json
  | .obj fs, k => (lookupField fs k).getD .null
  | _, _ => .null

/-- JavaScript `j.k`: throws a TypeError when `j` is `null`/`undefined`. -/
def jsGet (j : Json) (k : String) : Except Unit Json :=
  match j with
  | .null => .error ()
  | _ => .ok (fieldOrNull j k)

/-- JavaScript optional chaining `j?.k`. -/
def jsGetOpt (j : Json) (k : String) : Json :=
  fieldOrNull j k

/-- JavaScript `a || b`. -/
def jsOr (a b : Json) : Json :=
  if truthy a then a else b

/-- JavaScript `j?.[0]` (array first element; string first character;
objects index by key `"0"`; otherwise `undefined`). -/
def jsIndexZero : Json → Json
  | .arr xs => xs.head?.getD .null
  | .obj fs => (lookupField fs "0").getD .null
  | .str s =>
    match s.data with
    | [] => .null
    | c :: _ => .str (String.mk [c])
  | _ => .null

/-- Fields contributed by an object-literal spread `{...j}`. -/
def spreadFields : Json → List (String × Json)
  | .obj fs => fs
  | .arr xs => xs.enum.map (fun p => (toString p.1, p.2))
  | .str s => s.data.enum.map (fun p => (toString p.1, .str (String.mk [p.2])))
  | _ => []

/-- Setting key `k` to `v` in an object-literal after a spread: replaces the
binding in place when the key is present, else appends it (JavaScript
object-literal semantics; field lists of real values are duplicate-free). -/
def override : List (String × Json) → String → Json → List (String × Json)
  | [], k, v => [(k, v)]
  | p :: rest, k, v => if p.1 = k then (k, v) :: rest else p :: override rest k v

/-- JavaScript string coercion as used in the template literal
for `estimated_time` (fuel-indexed so array joining terminates;
`Array.prototype.join` renders null elements as the empty string). -/
def jsToStringFuel : Nat → Json → String
  | _, .null => "null"
  | _, .bool b => cond b "true" "false"
  | _, .num n => toString n
  | _, .str s => s
  | 0, .arr _ => ""
  | fuel + 1, .arr xs =>
    String.intercalate "," (xs.map (fun x =>
      match x with
      | .null => ""
      | y => jsToStringFuel fuel y))
  | _, .obj _ => "[object Object]"

def jsToString (j : Json) : String := jsToStringFuel 1000000 j

/-- JavaScript `j === "lit"` for a string literal right-hand side. -/
def strictEqString (j : Json) (s : String) : Bool :=
  match j with
  | .str t => t == s
  | _ => false

/-!
The campaign normalizer: the `mappedData` computation of
`CampaignResults` (src/unnamed/part_001, lines 12-36), field by field.
-/

/-- The object built for one production task by the `.map` callback:
`{ task: task.title || task.description || "", priority: task.priority ||
"MEDIUM", estimated_time: task.estimated_hours ? ... : "TBD", completed:
task.status === "DONE" }`, with `task` a non-null value. -/
def canonTask (task : Json) : Json :=
  Json.obj
    [("task", jsOr (jsOr (fieldOrNull task "title") (fieldOrNull task "description")) (.str "")),
     ("priority", jsOr (fieldOrNull task "priority") (.str "MEDIUM")),
     ("estimated_time",
       if truthy (fieldOrNull task "estimated_hours") then
         .str (jsToString (fieldOrNull task "estimated_hours") ++ " hours")
       else .str "TBD"),
     ("completed", .bool (strictEqString (fieldOrNull task "status") "DONE"))]

/-- One step of the `.map` callback: the property accesses `task.title`
etc. throw when the array element is `null`/`undefined`. -/
def normTask (task : Json) : Except Unit Json :=
  match task with
  | .null => .error ()
  | t => .ok (canonTask t)

/-- Left-to-right exception-propagating map over the task array. -/
def normTaskList : List Json → Except Unit (List Json)
  | [] => .ok []
  | t :: ts => do
    let t2 ← normTask t
    let ts2 ← normTaskList ts
    .ok (t2 :: ts2)

/-- Evaluation of `data.production_tasks?.tasks?.map(...) || []`: the optional chain
yields `[]` when `tasks` is `undefined`; calling `.map` on a non-null
non-array throws; a (necessarily truthy) mapped array passes `||`
unchanged. -/
def normTasks (tv : Json) : Except Unit Json :=
  match tv with
  | .null => .ok (.arr [])
  | .arr xs => do
    let ys ← normTaskList xs
    .ok (.arr ys)
  | _ => .error ()

/-- The strategy object of the normalized model:
`{...data.strategy, primary_angle: data.strategy.key_themes?.[0] ||
"Marketing Strategy", key_messages: data.strategy.key_themes || [],
goals: data.strategy.campaign_objectives || []}` (given the values of the
two field reads). -/
def strategyPart (strat keyThemes campaignObjectives : Json) : Json :=
  Json.obj
    (override
      (override
        (override (spreadFields strat)
          "primary_angle" (jsOr (jsIndexZero keyThemes) (.str "Marketing Strategy")))
        "key_messages" (jsOr keyThemes (.arr [])))
      "goals" (jsOr campaignObjectives (.arr [])))

/-- The tiktok object of the normalized model, reading from
`data.platform_content?.tiktok` with the concrete defaults of the source. -/
def tiktokPart (tik : Json) : Json :=
  Json.obj
    [("hook", jsOr (jsGetOpt tik "hook") (.str "")),
     ("caption", jsOr (jsGetOpt tik "caption") (.str "")),
     ("hashtags", jsOr (jsGetOpt tik "hashtags") (.arr [])),
     ("optimal_time", jsOr (jsGetOpt tik "posting_time") (.str "6-9 PM")),
     ("format", jsOr (jsGetOpt tik "format") (.str "")),
     ("duration", jsOr (jsGetOpt tik "duration") (.str "")),
     ("cta", jsOr (jsGetOpt tik "cta") (.str ""))]

/-- The campaign normalizer: the `mappedData` object of `CampaignResults`
(the `normalize` of the spec).  `data.strategy` is a plain (throwing) access,
as are `data.strategy.key_themes` and
`data.strategy.campaign_objectives`; `platform_content` and
`production_tasks` are reached through optional chains. -/
def mappedData (data : Json) : Except Unit Json := do
  let strat ← jsGet data "strategy"
  let keyThemes ← jsGet strat "key_themes"
  let campaignObjectives ← jsGet strat "campaign_objectives"
  let platformContent ← jsGet data "platform_content"
  let productionTasks ← jsGet data "production_tasks"
  let tasks ← normTasks (jsGetOpt productionTasks "tasks")
  .ok (Json.obj
    [("strategy", strategyPart strat keyThemes campaignObjectives),
     ("tiktok", tiktokPart (jsGetOpt platformContent "tiktok")),
     ("tasks", tasks)])

/-- Key-presence test on an object value. -/
def hasField (j : Json) (k : String) : Bool :=
  match j with
  | .obj fs => (lookupField fs k).isSome
  | _ => false

/-!
The pipeline coordinator of `Home` (src/frontend/app/page.tsx): pipeline
status, the two completion handlers, and the persistence guard over the
`lastCampaign` storage key.
-/

inductive PipelineStatus where
  | idle
  | uploading
  | orchestrating
  | completed
  | error
  deriving DecidableEq

/-- The two coordinator-owned state cells of `Home`: `campaignData`
(initially `null`) and `orchStatus` (initially `idle`). -/
structure HomeState where
  campaignData : Json
  orchStatus : PipelineStatus

def initialHomeState : HomeState :=
  { campaignData := .null, orchStatus := .idle }

/-- The `onComplete` handler wired to `OrchestrationStatus`
(page.tsx lines 139-148): sets the model and `completed` only when
`!campaignData && data`; otherwise (data already present) it only logs a
skip. -/
def onComplete (data : Json) (s : HomeState) : HomeState :=
  if !truthy s.campaignData && truthy data then
    { campaignData := data, orchStatus := .completed }
  else s

/-- Handler `handleCampaignCreated` (page.tsx lines 74-94): any truthy payload is
stored and finalizes the status — the fully-populated and the
partially-complete branches perform the same writes, and only a falsy
payload is dropped. -/
def handleCampaignCreated (data : Json) (s : HomeState) : HomeState :=
  if truthy data && truthy (jsGetOpt data "strategy")
      && truthy (jsGetOpt data "platform_content") then
    { campaignData := data, orchStatus := .completed }
  else if truthy data then
    { campaignData := data, orchStatus := .completed }
  else s

/-- A non-empty string sitting in the `lastCampaign` storage slot, as seen
through `JSON.parse`: either a string the parser accepts — modelled by its
parsed value, since `JSON.parse` inverts `JSON.stringify` on JSON values —
or one it rejects. -/
inductive StoredValue where
  | validJson (j : Json)
  | malformed

/-- The restore branch of the mount effect (page.tsx lines 27-38):
`getItem` may return null (`none`); a present value is only consulted when
`campaignData` is still falsy; `JSON.parse` failure is caught and logged,
leaving the state untouched.  No shape of the parsed value is checked. -/
def restoreOnMount (stored : Option StoredValue) (s : HomeState) : HomeState :=
  match stored with
  | none => s
  | some sv =>
    if truthy s.campaignData then s
    else
      match sv with
      | .validJson j => { campaignData := j, orchStatus := .completed }
      | .malformed => s

/-- The write decided by the persistence effect (page.tsx lines 42-47):
`setItem` runs only under `campaignData && campaignData.strategy`, storing
`JSON.stringify(campaignData)`; the result is the value written, `none`
when no write happens. -/
def persistWrite (campaignData : Json) : Option Json :=
  if truthy campaignData && truthy (jsGetOpt campaignData "strategy") then
    some campaignData
  else none

/-- The persistence effect acting on the storage slot. -/
def persistEffect (campaignData : Json) (stored : Option StoredValue) :
    Option StoredValue :=
  match persistWrite campaignData with
  | some v => some (.validJson v)
  | none => stored

/-!
The upload form (src/frontend/components/video-uploader.tsx): file
validation, selection, and the submit path, with the two backend calls
represented by oracle responses and the emitted effects
(`onStatusChange` arguments, api calls, `setError`, `onCampaignCreated`)
recorded in order.
-/

structure JSFile where
  name : String
  type : String
  size : Nat
  deriving DecidableEq

def SUPPORTED_FORMATS : List String := ["video/mp4", "video/quicktime", "video/webm"]

def MAX_FILE_SIZE : Nat := 500 * 1024 * 1024

/-- Validation step `validateFile`: acceptance decision together with the error message
written by `setError` (`none` models `setError(null)` on success). -/
def validateFile (selectedFile : JSFile) : Bool × Option String :=
  if !(SUPPORTED_FORMATS.contains selectedFile.type) then
    (false, some "Please upload an MP4, MOV, or WebM file")
  else if selectedFile.size > MAX_FILE_SIZE then
    (false, some "File size must be under 500MB")
  else (true, none)

/-- Selection step `handleFileChange`/`handleDrop`: the file cell is
updated only when validation passes; a failing file leaves the previous
selection and surfaces the validation message.  No backend interaction
occurs in this step. -/
def handleFileChange (prevFile : Option JSFile) (prevError : Option String)
    (selectedFile : Option JSFile) : Option JSFile × Option String :=
  match selectedFile with
  | none => (prevFile, prevError)
  | some f =>
    if (validateFile f).1 then (some f, none)
    else (prevFile, (validateFile f).2)

inductive ApiCall where
  | uploadVideo
  | createCampaign
  | createCampaignFromTranscript
  deriving DecidableEq

/-- Observable effects of one submission: `onStatusChange` arguments in
order, backend calls in order, the final `setError` value, and the payload
passed to `onCampaignCreated` (if any). -/
structure ProcessOutcome where
  statusChanges : List PipelineStatus
  calls : List ApiCall
  errorMsg : Option String
  campaignCreated : Option Json

/-- Submission body `processVideo`, with the two awaited backend results supplied as
oracles (`uploadResp` for `api.uploadVideo`, `campaignResp` for either
campaign-creation call); a rejected promise is the `.error` case and is
handled by the catch block (`setError`, `onStatusChange("error")`). -/
def processVideo (file : Option JSFile) (manualTranscript : String)
    (uploadResp : Except String String) (campaignResp : Except String Json) :
    ProcessOutcome :=
  if file.isNone && manualTranscript == "" then
    { statusChanges := [], calls := [],
      errorMsg := some "Please upload a video or provide a transcript",
      campaignCreated := none }
  else
    match file with
    | some _ =>
      match uploadResp with
      | .error e =>
        { statusChanges := [.uploading, .error], calls := [.uploadVideo],
          errorMsg := some e, campaignCreated := none }
      | .ok _ =>
        match campaignResp with
        | .error e =>
          { statusChanges := [.uploading, .orchestrating, .error],
            calls := [.uploadVideo, .createCampaign],
            errorMsg := some e, campaignCreated := none }
        | .ok c =>
          if truthy c then
            { statusChanges := [.uploading, .orchestrating, .completed],
              calls := [.uploadVideo, .createCampaign],
              errorMsg := none, campaignCreated := some c }
          else
            { statusChanges := [.uploading, .orchestrating],
              calls := [.uploadVideo, .createCampaign],
              errorMsg := none, campaignCreated := none }
    | none =>
      match campaignResp with
      | .error e =>
        { statusChanges := [.uploading, .orchestrating, .error],
          calls := [.createCampaignFromTranscript],
          errorMsg := some e, campaignCreated := none }
      | .ok c =>
        if truthy c then
          { statusChanges := [.uploading, .orchestrating, .completed],
            calls := [.createCampaignFromTranscript],
            errorMsg := none, campaignCreated := some c }
        else
          { statusChanges := [.uploading, .orchestrating],
            calls := [.createCampaignFromTranscript],
            errorMsg := none, campaignCreated := none }

/-- Submit handler `handleSubmit` (video-uploader.tsx lines 126-139): the two validation
gates return before `processVideo`, so an empty submission emits no status
change and no call. -/
def handleSubmit (file : Option JSFile) (useManualTranscript : Bool)
    (manualTranscript : String) (uploadResp : Except String String)
    (campaignResp : Except String Json) : ProcessOutcome :=
  if file.isNone && manualTranscript == "" then
    { statusChanges := [], calls := [],
      errorMsg := some "Please upload a video or provide a transcript",
      campaignCreated := none }
  else if file.isNone && useManualTranscript && manualTranscript.trim == "" then
    { statusChanges := [], calls := [],
      errorMsg := some "Please enter a transcript",
      campaignCreated := none }
  else processVideo file manualTranscript uploadResp campaignResp

/-!
The simulated orchestration pipeline of `OrchestrationStatus`
(src/unnamed/part_001, `runOrchestrationPipeline`, lines 107-126): six
`setAgents` updates separated by timer awaits, driving the three fixed
agents through pending, processing, completed.
-/

inductive AgentStatus where
  | pending
  | processing
  | completed
  | error
  deriving DecidableEq

structure Agent where
  name : String
  status : AgentStatus
  estimatedTime : String
  description : String
  deriving DecidableEq

def initialAgents : List Agent :=
  [{ name := "Strategy Intelligence Agent", status := .pending,
     estimatedTime := "~45 sec",
     description := "Analyzing content angles and target audience" },
   { name := "Platform Optimization Agent", status := .pending,
     estimatedTime := "~35 sec",
     description := "Generating TikTok-optimized content" },
   { name := "Production Task Agent", status := .pending,
     estimatedTime := "~20 sec",
     description := "Creating production checklist" }]

/-- One `setAgents` update: rebuild the list with agent `i` given status
`st`, the others kept (the `[{...prev[0], status}, prev[1], prev[2]]`
pattern). -/
def setAgentStatus (agents : List Agent) (i : Nat) (st : AgentStatus) :
    List Agent :=
  agents.enum.map (fun p => if p.1 = i then { p.2 with status := st } else p.2)

/-- The six `setAgents` updates of `runOrchestrationPipeline`, in program
order. -/
def pipelineUpdates : List (List Agent → List Agent) :=
  [fun a => setAgentStatus a 0 .processing,
   fun a => setAgentStatus a 0 .completed,
   fun a => setAgentStatus a 1 .processing,
   fun a => setAgentStatus a 1 .completed,
   fun a => setAgentStatus a 2 .processing,
   fun a => setAgentStatus a 2 .completed]

/-- Every state of the agent list reachable while
`runOrchestrationPipeline` runs (before the first update and after each
one). -/
def pipelineTrace : List (List Agent) :=
  List.scanl (fun s u => u s) initialAgents pipelineUpdates

/-- Number of agents currently `processing`. -/
def processingCount (s : List Agent) : Nat :=
  (s.filter (fun a => a.status == .processing)).length

/-- Status of stage `i`, `pending` out of range. -/
def agentStatusAt (s : List Agent) (i : Nat) : AgentStatus :=
  ((s.get? i).map (fun a => a.status)).getD .pending

/-- Stage `i+1` may have left `pending` only once stage `i` is
`completed`. -/
def stageOrderOK (s : List Agent) : Bool :=
  (agentStatusAt s 1 == .pending || agentStatusAt s 0 == .completed)
    && (agentStatusAt s 2 == .pending || agentStatusAt s 1 == .completed)

/-!
Concrete payloads used by counterexamples and witnesses.
-/

/-- The demo payload emitted by the cosmetic pipeline,
`generateSampleCampaignData` (src/unnamed/part_001, lines 128-150). -/
def generateSampleCampaignData : Json :=
  Json.obj
    [("strategy", Json.obj
      [("primary_angle", .str "Behind-the-scenes transformation story"),
       ("target_audience", .str "Gen Z entrepreneurs (18-28)"),
       ("key_messages", .arr
         [.str "Innovation", .str "Authenticity", .str "Growth", .str "Community"]),
       ("content_pillars", .arr
         [.str "Education", .str "Entertainment", .str "Inspiration"])]),
     ("tiktok", Json.obj
      [("hook", .str "You won\x27t believe what this AI just created..."),
       ("caption", .str "From idea to viral content in seconds ✨ #AI #ContentCreation #MarketingHacks"),
       ("hashtags", .arr
         [.str "#viral", .str "#ai", .str "#marketing", .str "#tiktok",
          .str "#contenttips", .str "#entrepreneurship"]),
       ("optimal_time", .str "Tuesday 6-9 PM ET")]),
     ("tasks", .arr
      [Json.obj [("task", .str "Review generated hook text"), ("priority", .str "HIGH"),
                 ("estimated_time", .str "5 min"), ("completed", .bool false)],
       Json.obj [("task", .str "Film B-roll footage"), ("priority", .str "HIGH"),
                 ("estimated_time", .str "30 min"), ("completed", .bool false)],
       Json.obj [("task", .str "Add music and sound effects"), ("priority", .str "MEDIUM"),
                 ("estimated_time", .str "15 min"), ("completed", .bool false)],
       Json.obj [("task", .str "Schedule post for optimal time"), ("priority", .str "MEDIUM"),
                 ("estimated_time", .str "5 min"), ("completed", .bool false)],
       Json.obj [("task", .str "Prepare additional hashtag variations"), ("priority", .str "LOW"),
                 ("estimated_time", .str "10 min"), ("completed", .bool false)]])]

/-- A nested-shape backend payload (truthy, with `strategy` and
`platform_content`), as delivered to `handleCampaignCreated`. -/
def backendPayloadEx : Json :=
  Json.obj
    [("strategy", Json.obj [("key_themes", .arr [.str "Growth"])]),
     ("platform_content", Json.obj
       [("tiktok", Json.obj [("hook", .str "Backend hook")])])]

/-- An input already in canonical CampaignModel shape: top-level
`strategy.primary_angle`, `tiktok.hook`, and a `tasks` array. -/
def canonicalEx : Json :=
  Json.obj
    [("strategy", Json.obj
      [("primary_angle", .str "X"),
       ("target_audience", .str "Z"),
       ("key_messages", .arr [.str "A"]),
       ("content_pillars", .arr [])]),
     ("tiktok", Json.obj
      [("hook", .str "Y"),
       ("caption", .str "c"),
       ("hashtags", .arr []),
       ("optimal_time", .str "noon")]),
     ("tasks", .arr
      [Json.obj [("task", .str "T"), ("priority", .str "HIGH"),
                 ("estimated_time", .str "5 min"), ("completed", .bool false)]])]

/-- A nested payload whose single task carries a priority outside
HIGH/MEDIUM/LOW. -/
def payloadUrgent : Json :=
  Json.obj
    [("strategy", Json.obj []),
     ("production_tasks", Json.obj
       [("tasks", .arr
         [Json.obj [("title", .str "t"), ("priority", .str "URGENT")]])])]



/-- A non-video file, as in the rejected-upload example of the spec. -/
def pdfFileEx : JSFile :=
  { name := "doc.pdf", type := "application/pdf", size := 1000 }

/-- An input in canonical shape with symbolic components: a top-level
`strategy` object, a `tiktok` value, and a `tasks` value. -/
def canonShaped (sf : List (String × Json)) (tv kv : Json) : Json :=
  Json.obj [("strategy", Json.obj sf), ("tiktok", tv), ("tasks", kv)]

/-- The field list of the strategy object the normalizer produces from a
strategy object with fields `sf` (spread, then the three overridden
keys). -/
def strategyFields (sf : List (String × Json)) : List (String × Json) :=
  override
    (override
      (override sf
        "primary_angle"
        (jsOr (jsIndexZero (fieldOrNull (Json.obj sf) "key_themes")) (.str "Marketing Strategy")))
      "key_messages" (jsOr (fieldOrNull (Json.obj sf) "key_themes") (.arr [])))
    "goals" (jsOr (fieldOrNull (Json.obj sf) "campaign_objectives") (.arr []))

/-- The output of the normalizer on a canonical-shaped input: the rebuilt
strategy object, the all-default tiktok object (its own output has no
`platform_content`), and an empty task list (no `production_tasks`). -/
def canonOut (sf : List (String × Json)) : Json :=
  Json.obj
    [("strategy", Json.obj (strategyFields sf)),
     ("tiktok", tiktokPart .null),
     ("tasks", .arr [])]

def isNull : Json → Bool
  | .null => true
  | _ => false

/-- Well-formedness of the `production_tasks?.tasks?.map` chain: the
chain value is either absent or an array of non-null entries, so that
neither the `.map` call nor a task property access throws. -/
def tasksChainOK (data : Json) : Bool :=
  match jsGetOpt (fieldOrNull data "production_tasks") "tasks" with
  | .null => true
  | .arr xs => xs.all (fun t => !(isNull t))
  | _ => false

/-- Each task of the model carries the four canonical task fields. -/
def taskFieldsPresent : Json → Bool
  | .arr ts => ts.all (fun t =>
      hasField t "task" && hasField t "priority"
        && hasField t "estimated_time" && hasField t "completed")
  | _ => false

/-- Every required canonical field of the claim is present in the model:
the three top-level keys, `strategy.primary_angle` and
`strategy.key_messages`, the tiktok hook/caption/hashtags/optimal_time,
and the four fields of every task. -/
def requiredFieldsPresent (m : Json) : Bool :=
  hasField m "strategy" && hasField m "tiktok" && hasField m "tasks"
    && hasField (jsGetOpt m "strategy") "primary_angle"
    && hasField (jsGetOpt m "strategy") "key_messages"
    && hasField (jsGetOpt m "tiktok") "hook"
    && hasField (jsGetOpt m "tiktok") "caption"
    && hasField (jsGetOpt m "tiktok") "hashtags"
    && hasField (jsGetOpt m "tiktok") "optimal_time"
    && taskFieldsPresent (jsGetOpt m "tasks")

/-!
Supporting lemmas about object-literal override and field lookup.
-/

theorem lookup_override_self (fs : List (String × Json)) (k : String) (v : Json) :
    lookupField (override fs k v) k = some v := by
  induction fs with
  | nil => simp [override, lookupField]
  | cons p rest ih =>
    by_cases h : p.1 = k
    · simp [override, h, lookupField]
    · simp [override, h, lookupField, ih]

theorem lookup_override_ne (fs : List (String × Json)) (k k2 : String) (v : Json)
    (h : k2 ≠ k) : lookupField (override fs k v) k2 = lookupField fs k2 := by
  have h2 : ¬(k = k2) := fun e => h e.symm
  induction fs with
  | nil => simp [override, lookupField, h2]
  | cons p rest ih =>
    by_cases hp : p.1 = k
    · simp [override, lookupField, hp, h2]
    · simp only [override, hp, if_false]
      by_cases hk2 : p.1 = k2
      · simp [lookupField, hk2]
      · simp [lookupField, hk2, ih]

theorem override_of_lookup (fs : List (String × Json)) (k : String) (v : Json)
    (h : lookupField fs k = some v) : override fs k v = fs := by
  induction fs with
  | nil => simp [lookupField] at h
  | cons p rest ih =>
    obtain ⟨pk, pv⟩ := p
    by_cases hk : pk = k
    · subst hk
      simp [lookupField] at h
      simp [override, h]
    · simp [lookupField, hk] at h
      simp [override, hk, ih h]

theorem hasField_of_truthy_get (j : Json) (k : String)
    (h : truthy (jsGetOpt j k) = true) : hasField j k = true := by
  cases j with
  | obj fs =>
    cases hl : lookupField fs k with
    | none => simp [jsGetOpt, fieldOrNull, hl, truthy] at h
    | some v => simp [hasField, hl]
  | null => simp [jsGetOpt, fieldOrNull, truthy] at h
  | bool b => simp [jsGetOpt, fieldOrNull, truthy] at h
  | num n => simp [jsGetOpt, fieldOrNull, truthy] at h
  | str s => simp [jsGetOpt, fieldOrNull, truthy] at h
  | arr xs => simp [jsGetOpt, fieldOrNull, truthy] at h

/-!
Claim theorems.
-/

/-- Claim C7 (confirmed): a submission with no selected file and an empty
manual transcript is rejected by the first validation gate of
`handleSubmit`: no status change is emitted (the pipeline stays `idle`),
the validation error is surfaced, and no backend call is made — whatever
the checkbox state and whatever the backend would have answered. -/
theorem c7_empty_submission_rejected :
    ∀ (useManualTranscript : Bool) (uploadResp : Except String String)
      (campaignResp : Except String Json),
      handleSubmit none useManualTranscript "" uploadResp campaignResp =
        { statusChanges := [], calls := [],
          errorMsg := some "Please upload a video or provide a transcript",
          campaignCreated := none } := by
  intro u ur cr
  rfl

/-- Claim C9 (confirmed): in every state reachable during the simulated
orchestration pipeline, at most one agent stage is `processing`, and a
later stage has left `pending` only when the stage before it is already
`completed` — the three stage transitions are strictly sequential. -/
theorem c9_pipeline_sequential :
    ∀ s ∈ pipelineTrace, processingCount s ≤ 1 ∧ stageOrderOK s = true := by
  decide

/-- Claim C10 (confirmed): whenever the persistence effect writes to the
`lastCampaign` key, the written value is the (serialization of the) current
campaign model, that model is non-null, and it is an object containing a
`strategy` key. -/
theorem c10_persist_guard : ∀ (cd v : Json), persistWrite cd = some v →
    v = cd ∧ cd ≠ Json.null ∧ hasField v "strategy" = true := by
  intro cd v h
  unfold persistWrite at h
  split at h
  case isTrue hc =>
    simp only [Bool.and_eq_true] at hc
    obtain ⟨h1, h2⟩ := hc
    cases h
    refine ⟨rfl, ?_, ?_⟩
    · intro e
      subst e
      simp [truthy] at h1
    · exact hasField_of_truthy_get cd "strategy" h2
  case isFalse hc => cases h

/-- Witness for C10 at a concrete model carrying a `strategy` key. -/
theorem c10_persist_guard_witness :
    Json.obj [("strategy", Json.obj [])] ≠ Json.null ∧
    hasField (Json.obj [("strategy", Json.obj [])]) "strategy" = true := by
  have h := c10_persist_guard (Json.obj [("strategy", Json.obj [])])
    (Json.obj [("strategy", Json.obj [])]) rfl
  exact ⟨h.2.1, h.2.2⟩

/-- Counterexample to claim C5: the mount effect restores any stored value
that merely parses as JSON — here the empty object, which has no
`strategy` key — and still sets the status to `completed`; the claimed
structural-validity check does not exist on the restore path. -/
theorem c5_counterexample :
    restoreOnMount (some (.validJson (Json.obj []))) initialHomeState =
      { campaignData := Json.obj [], orchStatus := .completed } ∧
    hasField (Json.obj []) "strategy" = false :=
  ⟨rfl, rfl⟩

/-- Claim C5 as amended: on initial load with no campaign yet, a stored
value that parses as JSON is restored unconditionally (no check for a
`strategy` key) with status `completed`, while an unparseable stored value
— or an absent one — is swallowed without crashing and leaves the state
(in particular the `idle` status) untouched. -/
theorem c5_amended_restore :
    ∀ (j : Json) (s : HomeState), truthy s.campaignData = false →
      restoreOnMount (some (.validJson j)) s =
        { campaignData := j, orchStatus := .completed } ∧
      restoreOnMount (some .malformed) s = s ∧
      restoreOnMount none s = s := by
  intro j s h
  refine ⟨?_, ?_, rfl⟩
  · simp [restoreOnMount, h]
  · simp [restoreOnMount, h]

/-- Witness for the amended C5 at a concrete parsed value over a fresh
state. -/
theorem c5_amended_restore_witness :
    restoreOnMount (some (.validJson (Json.num 7))) initialHomeState =
      { campaignData := Json.num 7, orchStatus := .completed } ∧
    restoreOnMount (some .malformed) initialHomeState = initialHomeState ∧
    restoreOnMount none initialHomeState = initialHomeState :=
  c5_amended_restore (Json.num 7) initialHomeState rfl

/-- Claim C6 (confirmed): once a truthy campaign model with a truthy
`strategy` field has been persisted, a fresh load over the same storage
(initial state, then the mount effect) restores the identical model —
the stringify/parse round trip is the identity on JSON values — and sets
the pipeline status to `completed`. -/
theorem c6_persist_restore_round_trip :
    ∀ (m : Json) (stored : Option StoredValue),
      truthy m = true → truthy (jsGetOpt m "strategy") = true →
      restoreOnMount (persistEffect m stored) initialHomeState =
        { campaignData := m, orchStatus := .completed } := by
  intro m stored h1 h2
  have hw : persistWrite m = some m := by simp [persistWrite, h1, h2]
  simp [persistEffect, hw, restoreOnMount, initialHomeState, truthy]

/-- Witness for C6 at a concrete completed model. -/
theorem c6_persist_restore_round_trip_witness :
    restoreOnMount
        (persistEffect (Json.obj [("strategy", Json.obj [("primary_angle", Json.str "X")])]) none)
        initialHomeState =
      { campaignData := Json.obj [("strategy", Json.obj [("primary_angle", Json.str "X")])],
        orchStatus := .completed } :=
  c6_persist_restore_round_trip
    (Json.obj [("strategy", Json.obj [("primary_angle", Json.str "X")])]) none rfl rfl

/-- Counterexample to claim C1: when the simulated-pipeline signal is
accepted first (sample data, status `completed`), the later authoritative
backend signal does not leave the stored model unchanged — it overwrites
it, so the coordinator does not finalize on exactly one signal in this
order. -/
theorem c1_counterexample :
    onComplete generateSampleCampaignData initialHomeState =
      { campaignData := generateSampleCampaignData, orchStatus := .completed } ∧
    (handleCampaignCreated backendPayloadEx
        (onComplete generateSampleCampaignData initialHomeState)).campaignData =
      backendPayloadEx ∧
    backendPayloadEx ≠ generateSampleCampaignData := by
  refine ⟨rfl, rfl, ?_⟩
  simp [backendPayloadEx, generateSampleCampaignData]

/-- Claim C1 as amended: once a truthy model is stored, a later
simulated-pipeline signal (`onComplete`) leaves the state unchanged — so
the backend-first order does finalize exactly once — but a later truthy
backend signal (`handleCampaignCreated`) always overwrites the model and
sets `completed` again; only the cosmetic source is guarded. -/
theorem c1_amended_first_accept :
    ∀ (s : HomeState) (d : Json), truthy s.campaignData = true →
      onComplete d s = s ∧
      (truthy d = true →
        handleCampaignCreated d s =
          { campaignData := d, orchStatus := .completed }) := by
  intro s d h
  constructor
  · simp [onComplete, h]
  · intro hd
    by_cases hc : (truthy d && truthy (jsGetOpt d "strategy")
        && truthy (jsGetOpt d "platform_content")) = true
    · simp [handleCampaignCreated, hc]
    · simp [handleCampaignCreated, hc, hd]

/-- Witness for the amended C1: a finalized state ignores a later
simulated signal and is overwritten by a later backend signal. -/
theorem c1_amended_first_accept_witness :
    onComplete (Json.num 3)
        { campaignData := Json.obj [("strategy", Json.str "s")], orchStatus := .completed } =
      { campaignData := Json.obj [("strategy", Json.str "s")], orchStatus := .completed } ∧
    handleCampaignCreated (Json.num 3)
        { campaignData := Json.obj [("strategy", Json.str "s")], orchStatus := .completed } =
      { campaignData := Json.num 3, orchStatus := .completed } := by
  have h := c1_amended_first_accept
    { campaignData := Json.obj [("strategy", Json.str "s")], orchStatus := .completed }
    (Json.num 3) rfl
  exact ⟨h.1, h.2 rfl⟩

/-- Claim C8 (confirmed): `validateFile` runs at selection time, before
any backend interaction, and accepts a file exactly when its MIME type is
one of video/mp4, video/quicktime, video/webm and its size is at most
524,288,000 bytes (500 MiB).  A failing file is rejected with an error
message, never enters the file cell, and a subsequent submission (with no
other pending input) emits no backend call and no status change. -/
theorem c8_validate_before_network :
    MAX_FILE_SIZE = 524288000 ∧
    ∀ (f : JSFile) (prevError : Option String),
      ((validateFile f).1 = true ↔
        ((f.type = "video/mp4" ∨ f.type = "video/quicktime" ∨ f.type = "video/webm") ∧
          f.size ≤ 524288000)) ∧
      ((validateFile f).1 = false →
        handleFileChange none prevError (some f) = (none, (validateFile f).2) ∧
        ((validateFile f).2).isSome = true ∧
        (∀ (u : Bool) (ur : Except String String) (cr : Except String Json),
          (handleSubmit (handleFileChange none prevError (some f)).1 u "" ur cr).calls
            = [] ∧
          (handleSubmit (handleFileChange none prevError (some f)).1 u "" ur cr).statusChanges
            = [])) := by
  refine ⟨rfl, ?_⟩
  intro f prevError
  have hmem : f.type ∈ SUPPORTED_FORMATS ↔
      (f.type = "video/mp4" ∨ f.type = "video/quicktime" ∨ f.type = "video/webm") := by
    simp [SUPPORTED_FORMATS]
  by_cases h1 : f.type ∈ SUPPORTED_FORMATS
  · by_cases h2 : f.size ≤ 524288000
    · have hv : validateFile f = (true, none) := by
        have h2b : ¬(MAX_FILE_SIZE < f.size) := by unfold MAX_FILE_SIZE; omega
        simp [validateFile, h1, h2b]
      constructor
      · rw [hv]
        simp [hmem.mp h1, h2]
      · intro hf
        rw [hv] at hf
        simp at hf
    · have hv : validateFile f = (false, some "File size must be under 500MB") := by
        have h2b : MAX_FILE_SIZE < f.size := by unfold MAX_FILE_SIZE; omega
        simp [validateFile, h1, h2b]
      constructor
      · rw [hv]
        constructor
        · intro h
          simp at h
        · intro h
          exact absurd h.2 h2
      · intro hf
        have hfc : handleFileChange none prevError (some f) = (none, (validateFile f).2) := by
          simp [handleFileChange, hv]
        refine ⟨hfc, by rw [hv]; rfl, ?_⟩
        intro u ur cr
        rw [hfc]
        exact ⟨rfl, rfl⟩
  · have hv : validateFile f = (false, some "Please upload an MP4, MOV, or WebM file") := by
      simp [validateFile, h1]
    constructor
    · rw [hv]
      constructor
      · intro h
        simp at h
      · intro h
        exact absurd (hmem.mpr h.1) h1
    · intro hf
      have hfc : handleFileChange none prevError (some f) = (none, (validateFile f).2) := by
        simp [handleFileChange, hv]
      refine ⟨hfc, by rw [hv]; rfl, ?_⟩
      intro u ur cr
      rw [hfc]
      exact ⟨rfl, rfl⟩

/-- Witness for C8: a pdf upload is rejected with the MIME error, the
file cell stays empty, and the follow-up submission emits no call and no
status change. -/
theorem c8_validate_before_network_witness :
    handleFileChange none none (some pdfFileEx) = (none, (validateFile pdfFileEx).2) ∧
    (handleSubmit (handleFileChange none none (some pdfFileEx)).1 false ""
        (.ok "t") (.ok .null)).calls = [] ∧
    (handleSubmit (handleFileChange none none (some pdfFileEx)).1 false ""
        (.ok "t") (.ok .null)).statusChanges = [] := by
  have h := (c8_validate_before_network.2 pdfFileEx none).2 rfl
  exact ⟨h.1, (h.2.2 false (.ok "t") (.ok .null)).1, (h.2.2 false (.ok "t") (.ok .null)).2⟩

/-!
Supporting lemmas about the exception monad of the normalizer.
-/

theorem exc_bind_ok {α β : Type} (a : α) (f : α → Except Unit β) :
    (Except.ok a >>= f) = f a := rfl

theorem exc_bind_error {α β : Type} (f : α → Except Unit β) {e : Unit} :
    ((Except.error e : Except Unit α) >>= f) = .error e := rfl

theorem jsGet_ok (j v : Json) (k : String) (h : jsGet j k = .ok v) :
    j ≠ .null ∧ v = fieldOrNull j k := by
  cases j
  case null => cases h
  all_goals exact ⟨by simp, by cases h; rfl⟩

theorem jsGet_of_ne_null (j : Json) (k : String) (h : j ≠ .null) :
    jsGet j k = .ok (fieldOrNull j k) := by
  cases j
  case null => exact absurd rfl h
  all_goals rfl

theorem normTask_ok (raw t : Json) (h : normTask raw = .ok t) :
    raw ≠ .null ∧ t = canonTask raw := by
  cases raw
  case null => cases h
  all_goals exact ⟨by simp, by cases h; rfl⟩

theorem normTask_of_ne_null (raw : Json) (h : raw ≠ .null) :
    normTask raw = .ok (canonTask raw) := by
  cases raw
  case null => exact absurd rfl h
  all_goals rfl

theorem normTaskList_mem (xs ys : List Json) (h : normTaskList xs = .ok ys) :
    ∀ y ∈ ys, ∃ raw, raw ≠ Json.null ∧ y = canonTask raw := by
  induction xs generalizing ys with
  | nil =>
    cases h
    intro y hy
    cases hy
  | cons t ts ih =>
    unfold normTaskList at h
    cases hnt : normTask t with
    | error e =>
      rw [hnt] at h
      simp only [exc_bind_error] at h
      cases h
    | ok t2 =>
      rw [hnt] at h
      simp only [exc_bind_ok] at h
      cases hrest : normTaskList ts with
      | error e =>
        rw [hrest] at h
        simp only [exc_bind_error] at h
        cases h
      | ok ys2 =>
        rw [hrest] at h
        simp only [exc_bind_ok] at h
        cases h
        intro y hy
        rcases List.mem_cons.mp hy with hy1 | hy2
        · subst hy1
          obtain ⟨hraw, hct⟩ := normTask_ok t y hnt
          exact ⟨t, hraw, hct⟩
        · exact ih ys2 hrest y hy2

theorem normTaskList_total (xs : List Json) (h : ∀ t ∈ xs, isNull t = false) :
    ∃ ys, normTaskList xs = .ok ys := by
  induction xs with
  | nil => exact ⟨[], rfl⟩
  | cons t ts ih =>
    have ht : t ≠ Json.null := by
      intro e
      subst e
      have := h Json.null (List.mem_cons_self _ _)
      simp [isNull] at this
    obtain ⟨ys, hys⟩ := ih (fun x hx => h x (List.mem_cons_of_mem _ hx))
    refine ⟨canonTask t :: ys, ?_⟩
    unfold normTaskList
    rw [normTask_of_ne_null t ht]
    simp only [exc_bind_ok]
    rw [hys]
    simp only [exc_bind_ok]

theorem normTasks_arr_eq (xs : List Json) :
    normTasks (.arr xs) = (normTaskList xs >>= fun ys => .ok (.arr ys)) := rfl

theorem normTasks_ok_arr (tv v : Json) (h : normTasks tv = .ok v) :
    ∃ ts, v = .arr ts := by
  cases tv
  case null =>
    cases h
    exact ⟨[], rfl⟩
  case arr xs =>
    rw [normTasks_arr_eq] at h
    cases hl : normTaskList xs with
    | error e =>
      rw [hl] at h
      simp only [exc_bind_error] at h
      cases h
    | ok ys =>
      rw [hl] at h
      simp only [exc_bind_ok] at h
      cases h
      exact ⟨ys, rfl⟩
  all_goals cases h

theorem normTasks_mem (tv : Json) (ts : List Json)
    (h : normTasks tv = .ok (.arr ts)) :
    ∀ t ∈ ts, ∃ raw, raw ≠ Json.null ∧ t = canonTask raw := by
  cases tv
  case null =>
    cases h
    intro t ht
    cases ht
  case arr xs =>
    rw [normTasks_arr_eq] at h
    cases hl : normTaskList xs with
    | error e =>
      rw [hl] at h
      simp only [exc_bind_error] at h
      cases h
    | ok ys =>
      rw [hl] at h
      simp only [exc_bind_ok] at h
      cases h
      exact normTaskList_mem xs ts hl
  all_goals cases h

theorem mappedData_ok_shape (data m : Json) (h : mappedData data = .ok m) :
    ∃ ts, normTasks (jsGetOpt (fieldOrNull data "production_tasks") "tasks") = .ok (.arr ts) ∧
      m = Json.obj
        [("strategy", strategyPart (fieldOrNull data "strategy")
            (fieldOrNull (fieldOrNull data "strategy") "key_themes")
            (fieldOrNull (fieldOrNull data "strategy") "campaign_objectives")),
         ("tiktok", tiktokPart (jsGetOpt (fieldOrNull data "platform_content") "tiktok")),
         ("tasks", .arr ts)] := by
  unfold mappedData at h
  cases hd : jsGet data "strategy" with
  | error e =>
    rw [hd] at h
    simp only [exc_bind_error] at h
    cases h
  | ok strat =>
    rw [hd] at h
    simp only [exc_bind_ok] at h
    obtain ⟨hdn, hstrat⟩ := jsGet_ok data strat "strategy" hd
    cases hk : jsGet strat "key_themes" with
    | error e =>
      rw [hk] at h
      simp only [exc_bind_error] at h
      cases h
    | ok kt =>
      rw [hk] at h
      simp only [exc_bind_ok] at h
      obtain ⟨hsn, hkt⟩ := jsGet_ok strat kt "key_themes" hk
      cases hc : jsGet strat "campaign_objectives" with
      | error e =>
        rw [hc] at h
        simp only [exc_bind_error] at h
        cases h
      | ok co =>
        rw [hc] at h
        simp only [exc_bind_ok] at h
        obtain ⟨-, hco⟩ := jsGet_ok strat co "campaign_objectives" hc
        rw [jsGet_of_ne_null data "platform_content" hdn] at h
        simp only [exc_bind_ok] at h
        rw [jsGet_of_ne_null data "production_tasks" hdn] at h
        simp only [exc_bind_ok] at h
        cases ht : normTasks (jsGetOpt (fieldOrNull data "production_tasks") "tasks") with
        | error e =>
          rw [ht] at h
          simp only [exc_bind_error] at h
          cases h
        | ok tasks =>
          rw [ht] at h
          simp only [exc_bind_ok] at h
          obtain ⟨ts, hts⟩ := normTasks_ok_arr _ tasks ht
          subst hts
          cases h
          subst hkt
          subst hco
          subst hstrat
          exact ⟨ts, rfl, rfl⟩

theorem strategyPart_hasField_pa (S KT CO : Json) :
    hasField (strategyPart S KT CO) "primary_angle" = true := by
  simp only [strategyPart, hasField]
  rw [lookup_override_ne _ _ _ _ (by decide), lookup_override_ne _ _ _ _ (by decide),
    lookup_override_self]
  rfl

theorem strategyPart_hasField_km (S KT CO : Json) :
    hasField (strategyPart S KT CO) "key_messages" = true := by
  simp only [strategyPart, hasField]
  rw [lookup_override_ne _ _ _ _ (by decide), lookup_override_self]
  rfl

/-- Counterexample to claim C4: on a payload whose `strategy` object is
entirely absent, the normalizer performs an unchecked access
(`data.strategy.key_themes`) and throws instead of producing a model. -/
theorem c4_counterexample :
    hasField (Json.obj []) "strategy" = false ∧
    mappedData (Json.obj []) = .error () :=
  ⟨rfl, rfl⟩

/-- Claim C4 as amended: the normalizer is total on payloads whose
`strategy` field is present and non-null and whose
`production_tasks?.tasks` chain is well formed (absent, or an array of
non-null entries); `platform_content` and `production_tasks` may be
entirely absent, and every fallback chain then ends in a concrete
default.  An absent `strategy` makes it throw. -/
theorem c4_amended_totality :
    ∀ data : Json, data ≠ .null → fieldOrNull data "strategy" ≠ .null →
      tasksChainOK data = true → ∃ m, mappedData data = .ok m := by
  intro data hd hs hchain
  unfold mappedData
  rw [jsGet_of_ne_null data "strategy" hd]
  simp only [exc_bind_ok]
  rw [jsGet_of_ne_null _ "key_themes" hs]
  simp only [exc_bind_ok]
  rw [jsGet_of_ne_null _ "campaign_objectives" hs]
  simp only [exc_bind_ok]
  rw [jsGet_of_ne_null data "platform_content" hd]
  simp only [exc_bind_ok]
  rw [jsGet_of_ne_null data "production_tasks" hd]
  simp only [exc_bind_ok]
  unfold tasksChainOK at hchain
  cases hx : jsGetOpt (fieldOrNull data "production_tasks") "tasks" with
  | null => exact ⟨_, rfl⟩
  | arr xs =>
    rw [hx] at hchain
    simp only [List.all_eq_true] at hchain
    have hall : ∀ t ∈ xs, isNull t = false := by
      intro t ht
      have h2 := hchain t ht
      simp at h2
      exact h2
    obtain ⟨ys, hys⟩ := normTaskList_total xs hall
    rw [normTasks_arr_eq, hys]
    simp only [exc_bind_ok]
    exact ⟨_, rfl⟩
  | bool b => rw [hx] at hchain; cases hchain
  | num n => rw [hx] at hchain; cases hchain
  | str s => rw [hx] at hchain; cases hchain
  | obj fs => rw [hx] at hchain; cases hchain

/-- Witness for the amended C4: a payload with an empty `strategy` object
and nothing else normalizes without throwing. -/
theorem c4_amended_totality_witness :
    ∃ m, mappedData (Json.obj [("strategy", Json.obj [])]) = .ok m :=
  c4_amended_totality (Json.obj [("strategy", Json.obj [])]) (by simp)
    (by simp [fieldOrNull, lookupField]) rfl

/-- Counterexample to claim C2: a task priority outside HIGH/MEDIUM/LOW
is not normalized to MEDIUM — `URGENT` passes through unchanged into the
model. -/
theorem c2_counterexample :
    (mappedData payloadUrgent).map
        (fun m => jsGetOpt (jsIndexZero (jsGetOpt m "tasks")) "priority") =
      .ok (.str "URGENT") ∧
    Json.str "URGENT" ≠ .str "HIGH" ∧ Json.str "URGENT" ≠ .str "MEDIUM" ∧
    Json.str "URGENT" ≠ .str "LOW" := by
  refine ⟨rfl, by simp, by simp, by simp⟩

/-- Claim C2 as amended: whenever the normalizer succeeds, every required
canonical field is present in the model (strategy/tiktok/tasks, the
strategy and tiktok subfields, and the four fields of each task), and the
per-task rules are: `completed` is true exactly when the raw status
strictly equals DONE, while `priority` falls back to MEDIUM only when the
raw priority is falsy (absent/empty) — a present truthy priority such as
URGENT passes through unchanged instead of being clamped to
HIGH/MEDIUM/LOW. -/
theorem c2_amended_required_fields :
    ∀ (data m : Json), mappedData data = .ok m →
      requiredFieldsPresent m = true ∧
      (∀ task : Json,
        jsGetOpt (canonTask task) "priority" =
          (if truthy (fieldOrNull task "priority") then fieldOrNull task "priority"
           else .str "MEDIUM") ∧
        jsGetOpt (canonTask task) "completed" =
          .bool (strictEqString (fieldOrNull task "status") "DONE")) := by
  intro data m h
  obtain ⟨ts, hts, hm⟩ := mappedData_ok_shape data m h
  subst hm
  constructor
  · have htf : taskFieldsPresent (Json.arr ts) = true := by
      simp only [taskFieldsPresent, List.all_eq_true]
      intro t ht2
      obtain ⟨raw, hraw, hct⟩ := normTasks_mem _ ts hts t ht2
      subst hct
      rfl
    have hpa := strategyPart_hasField_pa (fieldOrNull data "strategy")
      (fieldOrNull (fieldOrNull data "strategy") "key_themes")
      (fieldOrNull (fieldOrNull data "strategy") "campaign_objectives")
    have hkm := strategyPart_hasField_km (fieldOrNull data "strategy")
      (fieldOrNull (fieldOrNull data "strategy") "key_themes")
      (fieldOrNull (fieldOrNull data "strategy") "campaign_objectives")
    simp only [requiredFieldsPresent, jsGetOpt, hasField, fieldOrNull, lookupField]
    simp only [Bool.and_eq_true]
    refine ⟨⟨⟨⟨⟨⟨⟨⟨⟨rfl, rfl⟩, rfl⟩, ?_⟩, ?_⟩, rfl⟩, rfl⟩, rfl⟩, rfl⟩, ?_⟩
    · simpa [hasField] using hpa
    · simpa [hasField] using hkm
    · simpa using htf
  · intro task
    constructor
    · simp [canonTask, jsGetOpt, fieldOrNull, lookupField, jsOr]
    · simp [canonTask, jsGetOpt, fieldOrNull, lookupField]

/-- Witness for the amended C2: the model produced from the minimal
payload carries every required canonical field. -/
theorem c2_amended_required_fields_witness :
    requiredFieldsPresent (Json.obj
      [("strategy", strategyPart (Json.obj []) .null .null),
       ("tiktok", tiktokPart .null),
       ("tasks", .arr [])]) = true :=
  (c2_amended_required_fields (Json.obj [("strategy", Json.obj [])]) _ rfl).1

/-- Counterexample to claim C3: already-canonical input does not
round-trip.  The canonical example carries `tiktok.hook = "Y"` and a
non-empty task list, yet normalizing it resets the hook to `""` and the
tasks to `[]` — data loss, not default-filling of absent fields. -/
theorem c3_counterexample :
    (mappedData canonicalEx).map (fun m => jsGetOpt (jsGetOpt m "tiktok") "hook") =
      .ok (.str "") ∧
    jsGetOpt (jsGetOpt canonicalEx "tiktok") "hook" = .str "Y" ∧
    (mappedData canonicalEx).map (fun m => jsGetOpt m "tasks") = .ok (.arr []) ∧
    jsGetOpt canonicalEx "tasks" ≠ .arr [] ∧
    mappedData canonicalEx ≠ .ok canonicalEx := by
  refine ⟨rfl, rfl, rfl, by simp [canonicalEx, jsGetOpt, fieldOrNull, lookupField], ?_⟩
  intro h
  have e1 : ((Except.ok canonicalEx : Except Unit Json)).map
      (fun m => jsGetOpt (jsGetOpt m "tiktok") "hook") = .ok (.str "") := by
    rw [← h]
    rfl
  simp [canonicalEx, jsGetOpt, fieldOrNull, lookupField, Except.map] at e1

theorem strategyFields_idem (sf : List (String × Json)) :
    strategyFields (strategyFields sf) = strategyFields sf := by
  have hkt : lookupField (strategyFields sf) "key_themes" = lookupField sf "key_themes" := by
    unfold strategyFields
    rw [lookup_override_ne _ _ _ _ (by decide), lookup_override_ne _ _ _ _ (by decide),
      lookup_override_ne _ _ _ _ (by decide)]
  have hco : lookupField (strategyFields sf) "campaign_objectives" =
      lookupField sf "campaign_objectives" := by
    unfold strategyFields
    rw [lookup_override_ne _ _ _ _ (by decide), lookup_override_ne _ _ _ _ (by decide),
      lookup_override_ne _ _ _ _ (by decide)]
  have l1 : lookupField (strategyFields sf) "primary_angle" =
      some (jsOr (jsIndexZero (fieldOrNull (Json.obj sf) "key_themes"))
        (.str "Marketing Strategy")) := by
    unfold strategyFields
    rw [lookup_override_ne _ _ _ _ (by decide), lookup_override_ne _ _ _ _ (by decide),
      lookup_override_self]
  have l2 : lookupField (strategyFields sf) "key_messages" =
      some (jsOr (fieldOrNull (Json.obj sf) "key_themes") (.arr [])) := by
    unfold strategyFields
    rw [lookup_override_ne _ _ _ _ (by decide), lookup_override_self]
  have l3 : lookupField (strategyFields sf) "goals" =
      some (jsOr (fieldOrNull (Json.obj sf) "campaign_objectives") (.arr [])) := by
    unfold strategyFields
    rw [lookup_override_self]
  have hktf : fieldOrNull (Json.obj (strategyFields sf)) "key_themes" =
      fieldOrNull (Json.obj sf) "key_themes" := by
    simp [fieldOrNull, hkt]
  have hcof : fieldOrNull (Json.obj (strategyFields sf)) "campaign_objectives" =
      fieldOrNull (Json.obj sf) "campaign_objectives" := by
    simp [fieldOrNull, hco]
  show override
      (override
        (override (strategyFields sf)
          "primary_angle"
          (jsOr (jsIndexZero (fieldOrNull (Json.obj (strategyFields sf)) "key_themes"))
            (.str "Marketing Strategy")))
        "key_messages" (jsOr (fieldOrNull (Json.obj (strategyFields sf)) "key_themes") (.arr [])))
      "goals" (jsOr (fieldOrNull (Json.obj (strategyFields sf)) "campaign_objectives") (.arr []))
    = strategyFields sf
  rw [hktf, hcof]
  rw [override_of_lookup _ _ _ l1, override_of_lookup _ _ _ l2, override_of_lookup _ _ _ l3]

/-- Claim C3 as amended: the normalizer does not round-trip
already-canonical input — tiktok content and tasks are replaced by
defaults and the strategy keys are recomputed — but on canonical-shaped
input it is idempotent in the weaker function sense: applying it again to
its own output changes nothing. -/
theorem c3_amended_idempotent :
    ∀ (sf : List (String × Json)) (tv kv m : Json),
      mappedData (canonShaped sf tv kv) = .ok m → mappedData m = .ok m := by
  intro sf tv kv m h
  have hA : mappedData (canonShaped sf tv kv) = .ok (canonOut sf) := rfl
  rw [hA] at h
  injection h with h
  subst h
  have hB : mappedData (canonOut sf) = .ok (canonOut (strategyFields sf)) := rfl
  rw [hB]
  have hC : canonOut (strategyFields sf) = canonOut sf := by
    unfold canonOut
    rw [strategyFields_idem]
  rw [hC]

/-- Witness for the amended C3 at a concrete canonical-shaped input with
a `key_themes` strategy entry. -/
theorem c3_amended_idempotent_witness :
    mappedData (canonOut [("key_themes", Json.arr [Json.str "A"])]) =
      .ok (canonOut [("key_themes", Json.arr [Json.str "A"])]) :=
  c3_amended_idempotent [("key_themes", Json.arr [Json.str "A"])] .null .null
    (canonOut [("key_themes", Json.arr [Json.str "A"])]) rfl

/-- Witness for C9 at the first reachable state of the trace. -/
theorem c9_pipeline_sequential_witness :
    processingCount initialAgents ≤ 1 ∧ stageOrderOK initialAgents = true :=
  c9_pipeline_sequential initialAgents (by decide)
